import Mathlib

/-!
Verification of the catbee tree-router (`src/tree-router.js`).

The JavaScript source is shallowly embedded: JS objects used as string-keyed
maps become association lists (`AssocMap`) with `Object.assign` semantics made
explicit, a `Route` with its set-once parent back-reference becomes an
inductive tree, and the mutating registry operations become state-passing
functions returning the new registry together with an optional error.
JS string primitives (`startsWith`, `endsWith`, first-occurrence `replace`
including its `GetSubstitution` processing of dollar sequences in the
replacement value, `split`) are given executable char-list implementations
so that every definition evaluates inside the kernel, and object key
enumeration (`for...in`, `Object.keys`) follows ECMAScript own-property-key
order (array-index keys first, ascending, then insertion order).

The path pattern compiler (`routeHelper.compileRoute` from the `catbee`
package) and the `URI` value type (`catberry-uri`) are external dependencies
whose code is not in this repository; they are modelled from the spec
(§4.1 and §6) and marked as such in their doc comments.
-/

set_option autoImplicit false

namespace TreeRouter

/-! ### JS string primitives -/

/-- `s.startsWith(pre)`. -/
def strStartsWith (s pre : String) : Bool :=
  pre.toList.isPrefixOf s.toList

/-- `s.endsWith(post)`. -/
def strEndsWith (s post : String) : Bool :=
  post.toList.isSuffixOf s.toList

/-- `s.substr(0, s.length - 1)`: drop the last character. -/
def strDropLast (s : String) : String :=
  .mk s.toList.dropLast

/-- ECMA-262 `GetSubstitution` on a string replacement value with a string
search pattern (no capture groups): `$$` is a literal dollar, `$&` the
matched text, a dollar before a backquote the portion before the match, a
dollar before a quote the portion after the match; any other dollar (also
`$1`..`$9` and `$<`, as there are no captures) stays literal. -/
def getSubstAux (matched before after : List Char) :
    Nat → List Char → List Char
  | _, [] => []
  | 0, s => s
  | n + 1, c :: rest =>
      if c = Char.ofNat 36 then
        match rest with
        | [] => [c]
        | d :: rest2 =>
            if d = Char.ofNat 36 then
              Char.ofNat 36 :: getSubstAux matched before after n rest2
            else if d = '&' then
              matched ++ getSubstAux matched before after n rest2
            else if d = Char.ofNat 96 then
              before ++ getSubstAux matched before after n rest2
            else if d = Char.ofNat 39 then
              after ++ getSubstAux matched before after n rest2
            else c :: getSubstAux matched before after n (d :: rest2)
      else c :: getSubstAux matched before after n rest

/-- Fuel-driven worker for first-occurrence replacement: at the first
position where `pat` is a prefix, emit `GetSubstitution` of the replacement
(matched text, prefix, suffix) and the remainder; `acc` holds the consumed
prefix reversed. -/
def replaceFirstAux (pat repl : List Char) :
    Nat → List Char → List Char → List Char
  | _, [], acc => acc.reverse
  | 0, s, acc => acc.reverse ++ s
  | n + 1, c :: rest, acc =>
      if pat.isPrefixOf (c :: rest) then
        acc.reverse ++
          getSubstAux pat acc.reverse ((c :: rest).drop pat.length)
            repl.length repl ++
          (c :: rest).drop pat.length
      else replaceFirstAux pat repl n rest (c :: acc)

/-- `s.replace(pat, repl)` with string pattern and string replacement: JS
replaces only the FIRST occurrence, running `GetSubstitution` on the
replacement value (an empty pattern matches at the start). -/
def replaceFirstStr (s pat repl : String) : String :=
  if pat.toList.isEmpty then
    .mk (getSubstAux [] [] s.toList repl.toList.length repl.toList) ++ s
  else .mk (replaceFirstAux pat.toList repl.toList s.toList.length s.toList [])

/-- True when `pat` occurs as a contiguous substring of `s`. -/
def hasSubstrAux (pat : List Char) : List Char → Bool
  | [] => pat.isEmpty
  | c :: rest => pat.isPrefixOf (c :: rest) || hasSubstrAux pat rest

/-- Substring occurrence test for strings. -/
def hasSubstr (s pat : String) : Bool :=
  hasSubstrAux pat.toList s.toList

/-- Fuel-driven worker for splitting on a (non-empty) separator. -/
def splitOnAux (sep : List Char) : Nat → List Char → List Char → List (List Char)
  | _, [], acc => [acc.reverse]
  | 0, s, acc => [acc.reverse ++ s]
  | n + 1, c :: rest, acc =>
      if sep.isPrefixOf (c :: rest) then
        acc.reverse :: splitOnAux sep n ((c :: rest).drop sep.length) []
      else splitOnAux sep n rest (c :: acc)

/-- `s.split(sep)` for a non-empty separator (an empty separator yields the
whole string, which never arises here). -/
def splitOnStr (s sep : String) : List String :=
  if sep.toList.isEmpty then [s]
  else (splitOnAux sep.toList s.toList.length s.toList []).map .mk

/-- Join a list of strings with a separator. -/
def joinWith (sep : String) : List String → String
  | [] => ""
  | [x] => x
  | x :: y :: rest => x ++ sep ++ joinWith sep (y :: rest)

/-- Numeric value of a decimal digit string. -/
def strToNat (s : String) : Nat :=
  s.toList.foldl (fun a c => a * 10 + (c.toNat - 48)) 0

/-- Fuel-driven worker replacing EVERY occurrence of `pat` (the spec-side
reading of "each token replaced"). -/
def replaceAllAux (pat repl : List Char) : Nat → List Char → List Char
  | _, [] => []
  | 0, s => s
  | n + 1, c :: rest =>
      if pat.isPrefixOf (c :: rest) then
        repl ++ replaceAllAux pat repl n ((c :: rest).drop pat.length)
      else c :: replaceAllAux pat repl n rest

/-- Replacement of every occurrence of `pat` in `s`. -/
def replaceAllStr (s pat repl : String) : String :=
  if pat.toList.isEmpty then s
  else .mk (replaceAllAux pat.toList repl.toList s.toList.length s.toList)

/-! ### JS objects as association lists -/

/-- A JS object used as a string→string map, in property-insertion order. -/
abbrev AssocMap := List (String × String)

/-- Property read (`obj[key]`): first entry with the key, if any. -/
def aget : AssocMap → String → Option String
  | [], _ => none
  | (k, v) :: rest, key => if k = key then some v else aget rest key

/-- Property write (`obj[key] = val`): overwrite in place, else append. -/
def aset : AssocMap → String → String → AssocMap
  | [], k, v => [(k, v)]
  | (k', v') :: rest, k, v =>
      if k' = k then (k', v) :: rest else (k', v') :: aset rest k v

/-- `Object.assign(target, src)`: every own property of `src` written onto
`target` in iteration order. -/
def objAssign (target src : AssocMap) : AssocMap :=
  src.foldl (fun acc kv => aset acc kv.1 kv.2) target

/-- A fresh object built from a list of property writes (later writes win,
keys end up unique), as when a JS object is populated key by key. -/
def mkObj (src : AssocMap) : AssocMap :=
  objAssign [] src

/-- The keys of the map are pairwise distinct, as they are for any value
that is an actual JS object. -/
def KeysUnique (m : AssocMap) : Prop :=
  (m.map Prod.fst).Nodup

instance (m : AssocMap) : Decidable (KeysUnique m) := by
  unfold KeysUnique; infer_instance

/-! ### Route nodes -/

/-- A route handler descriptor: signal name plus static args
(`signal(name, args)` in the source). -/
structure Handler where
  signal : String
  args : AssocMap
deriving DecidableEq, Repr

/-- `Route` from the source: local url template, optional explicit name,
handler, and the set-once parent back-reference. -/
inductive Route where
  | mk (url : String) (rawName : Option String) (handler : Handler)
       (parent : Option Route)
deriving Repr

/-- The normalized local template (`this._url`). -/
def Route.url : Route → String
  | .mk u _ _ _ => u

/-- The stored name (`this._name`), `none`/`some ""` standing for the falsy
JS values a string-or-absent name can take. -/
def Route.rawName : Route → Option String
  | .mk _ n _ _ => n

/-- The stored handler (`this._handler`). -/
def Route.handler : Route → Handler
  | .mk _ _ h _ => h

/-- The parent getter (`get parent`). -/
def Route.parent : Route → Option Route
  | .mk _ _ _ p => p

/-- The constructor `new Route(url, name, handler)`: prefixes `/` when
missing and starts with no parent. -/
def Route.new (url : String) (name : Option String) (handler : Handler) :
    Route :=
  .mk (if strStartsWith url "/" then url else "/" ++ url) name handler none

/-- The name getter: `this._name || this._url` (a missing or empty string
name is falsy, so the url is the fallback). -/
def Route.name (r : Route) : String :=
  match r.rawName with
  | some n => if n = "" then r.url else n
  | none => r.url

/-- The parent setter: a silent no-op when a parent is already set
(`if (this._parent) return`). -/
def Route.setParent (r p : Route) : Route :=
  match r with
  | .mk u n h (some q) => .mk u n h (some q)
  | .mk u n h none => .mk u n h (some p)

/-- `parentPath.endsWith('/') ? parentPath.substr(0, length - 1) : parentPath`. -/
def stripEndSlash (s : String) : String :=
  if strEndsWith s "/" then strDropLast s else s

/-- `path()`: the local template when there is no parent, else the parent's
full path with a trailing slash stripped, concatenated with the template. -/
def Route.path : Route → String
  | .mk u _ _ none => u
  | .mk u _ _ (some p) => stripEndSlash (Route.path p) ++ u

/-! ### The path pattern compiler, modelled from the spec

`Route._compiledPath` calls `routeHelper.compileRoute(new URI(this.path()))`
from the external `catbee` package, whose code is not in this repository.
The compiler below is modelled from spec §4.1. -/

/-- Modelled from the spec (§6 URI value): the part of a template or URI
before the first `?`. -/
def pathPart (s : String) : String :=
  (splitOnStr s "?").headD s

/-- Modelled from the spec (§6 URI value): the part after the first `?`
(empty when there is none). -/
def queryPart (s : String) : String :=
  joinWith "?" (splitOnStr s "?").tail

/-- Modelled from the spec (§4.1): one template segment against one candidate
segment — a `:name` parameter segment matches any single non-empty segment,
a literal segment must match exactly. -/
def segTest (t c : String) : Bool :=
  if strStartsWith t ":" then !(c.toList.isEmpty) else t == c

/-- Modelled from the spec (§4.1): `test(path)` of the compiled pattern —
true iff the segment count matches exactly and every segment passes
`segTest`. -/
def testPath (tmpl cand : String) : Bool :=
  let ts := splitOnStr (pathPart tmpl) "/"
  let cs := splitOnStr cand "/"
  ts.length == cs.length && (ts.zip cs).all fun tc => segTest tc.1 tc.2

/-- Modelled from the spec (§4.1): positional extraction — every `:name`
segment of the template contributes `name -> ` the aligned candidate
segment. -/
def posParams (tmpl candPath : String) : AssocMap :=
  let ts := splitOnStr (pathPart tmpl) "/"
  let cs := splitOnStr candPath "/"
  (ts.zip cs).filterMap fun tc =>
    if strStartsWith tc.1 ":" then some (tc.1.drop 1, tc.2) else none

/-- Modelled from the spec (§6 URI value): parse a query string into its
`key=value` pairs. -/
def parseQuery (q : String) : AssocMap :=
  if q.toList.isEmpty then []
  else (splitOnStr q "&").filterMap fun kv =>
    match splitOnStr kv "=" with
    | k :: v :: rest => some (k, joinWith "=" (v :: rest))
    | _ => none

/-- Modelled from the spec (§4.1): query extraction — each `?key=:name`
declared in the template contributes `name -> value` when `key` is present
in the concrete URI's query string, and is omitted when absent. -/
def queryParams (tmpl uriQuery : String) : AssocMap :=
  let uq := parseQuery uriQuery
  (parseQuery (queryPart tmpl)).filterMap fun kn =>
    if strStartsWith kn.2 ":" then
      match aget uq kn.1 with
      | some v => some (kn.2.drop 1, v)
      | none => none
    else none

/-- Modelled from the spec (§6): a URI value exposing a path component and a
query-string component. -/
structure Uri where
  path : String
  query : String
deriving DecidableEq, Repr

/-- Modelled from the spec (§4.1): `extract`/`map` of the compiled pattern —
the JS object collecting positional then query parameters. -/
def compiledMap (tmpl : String) (u : Uri) : AssocMap :=
  mkObj (posParams tmpl u.path ++ queryParams tmpl u.query)

/-! ### Route matching and handling -/

/-- `matches(path)`: the compiled pattern of the FULL path tested against
the candidate path. -/
def Route.matches (r : Route) (p : String) : Bool :=
  testPath (Route.path r) p

/-- The result of `handle`: signal name plus merged args. -/
structure Handled where
  signal : String
  args : AssocMap
deriving Repr

/-- `handle(uri)`:
`Object.assign({ routeName: this.name }, uriArgs, this._handler.args)`. -/
def Route.handle (r : Route) (u : Uri) : Handled :=
  let uriArgs := compiledMap (Route.path r) u
  { signal := r.handler.signal
    args := objAssign (objAssign [("routeName", Route.name r)] uriArgs)
      r.handler.args }

/-! ### Route registry -/

/-- The error thrown on a duplicate route name; it carries the conflicting
route. -/
structure DuplicatedRouteError where
  route : Route

/-- The registry's backing object `this._routes`, as its entries in
property-insertion order (keys are kept unique by `addRoute`). -/
structure RouteRegistry where
  routes : List (String × Route)

/-- `new RouteRegistry()`. -/
def RouteRegistry.empty : RouteRegistry := ⟨[]⟩

/-- `byName(name)`: plain property lookup. -/
def RouteRegistry.byName (reg : RouteRegistry) (n : String) : Option Route :=
  (reg.routes.find? fun p => p.1 == n).map (·.2)

/-- `addRoute(route)`: throw `DuplicatedRouteError` when `route.name` is
already a key, else store under `route.name`; the pair returned is the
registry state after the call together with the error, if any. -/
def RouteRegistry.addRoute (reg : RouteRegistry) (r : Route) :
    RouteRegistry × Option DuplicatedRouteError :=
  if reg.routes.any fun p => p.1 == Route.name r then (reg, some ⟨r⟩)
  else (⟨reg.routes ++ [(Route.name r, r)]⟩, none)

/-- A canonical numeric string: digits only, no superfluous leading zero. -/
def isCanonicalDigits (s : String) : Bool :=
  match s.toList with
  | [] => false
  | [c] => c.isDigit
  | c :: cs => c.isDigit && c != '0' && cs.all (·.isDigit)

/-- An ECMAScript array index: a canonical numeric string whose value is
below 2^32 - 1.  `for...in` enumerates such keys first, in ascending
numeric order, before the remaining string keys in insertion order. -/
def isArrayIndex (s : String) : Bool :=
  isCanonicalDigits s && strToNat s < 4294967295

/-- Numeric sort key of an array-index property name. -/
def keyNum (p : String × Route) : Nat :=
  strToNat p.1

/-- ECMAScript `for...in` enumeration order over the registry's entries:
array-index keys in ascending numeric order, then the rest in
insertion order. -/
def forInOrder (routes : List (String × Route)) : List (String × Route) :=
  (List.insertionSort (fun a b => keyNum a ≤ keyNum b)
      (routes.filter fun p => isArrayIndex p.1))
    ++ routes.filter fun p => !isArrayIndex p.1

/-- `matchingRoute(path)`: `for...in` scan returning the first route whose
`matches(path)` is true, `null` if none. -/
def RouteRegistry.matchingRoute (reg : RouteRegistry) (path : String) :
    Option Route :=
  ((forInOrder reg.routes).find? fun p => Route.matches p.2 path).map (·.2)

/-- The spec's description of `matchingRoute`: first match in REGISTRATION
order. -/
def matchingRouteSpec (reg : RouteRegistry) (path : String) : Option Route :=
  (reg.routes.find? fun p => Route.matches p.2 path).map (·.2)

/-! ### TreeRouterService -/

/-- ECMAScript `Object.keys` enumeration order over the entries of an args
object: array-index-like keys first in ascending numeric order, then the
remaining keys in insertion order (the same own-property-key order
`for...in` follows for the registry). -/
def objKeysOrder (m : AssocMap) : AssocMap :=
  (List.insertionSort (fun a b => strToNat a.1 ≤ strToNat b.1)
      (m.filter fun p => isArrayIndex p.1))
    ++ m.filter fun p => !isArrayIndex p.1

/-- `_replaceParams(path, args)`: `Object.keys(args).reduce` over FIRST-
occurrence string replacement of each `:key` token, the keys enumerated in
`Object.keys` order. -/
def replaceParams (path : String) (args : AssocMap) : String :=
  (objKeysOrder args).foldl
    (fun acc kv => replaceFirstStr acc (":" ++ kv.1) kv.2) path

namespace TreeRouterService

/-- `named(name, args)`: `null` when the name is unknown, else the found
node's full path with params substituted. -/
def named (reg : RouteRegistry) (name : String) (args : AssocMap) :
    Option String :=
  match reg.byName name with
  | none => none
  | some r => some (replaceParams (Route.path r) args)

/-- `parent(name, args)`: `null` when the name is unknown or the node has no
parent, else the parent's full path with params substituted. -/
def parent (reg : RouteRegistry) (name : String) (args : AssocMap) :
    Option String :=
  match (reg.byName name).bind Route.parent with
  | none => none
  | some p => some (replaceParams (Route.path p) args)

end TreeRouterService


/-! ### The spec-side reading of parameter substitution (claim C4)

The spec claims every `:key` token is replaced; the source's
`acc.replace(':' + curr, args[curr])` replaces only the first occurrence. -/

/-- The substitution as the spec words it: EVERY occurrence of each `:key`
token replaced, keys applied in mapping-iteration order. -/
def substSpec (path : String) (args : AssocMap) : String :=
  args.foldl (fun acc kv => replaceAllStr acc (":" ++ kv.1) kv.2) path

/-! ### Concrete fixtures used by witnesses and counterexamples -/

/-- A handler with one static arg, as in the source's test suite. -/
def hdl : Handler := ⟨"sig", [("signalArgs", "value")]⟩

/-- A route whose static args collide with the extracted `id` param. -/
def c1Route : Route := Route.new "/some/:id" none ⟨"sig", [("id", "static")]⟩

/-- A route registered under the array-index-like name `"2"`. -/
def c2RouteA : Route := Route.new "/x" (some "2") ⟨"sa", []⟩

/-- A route registered under the array-index-like name `"1"`. -/
def c2RouteB : Route := Route.new "/x" (some "1") ⟨"sb", []⟩

/-- Registry with `"2"` registered before `"1"`; both routes match `/x`. -/
def c2Reg : RouteRegistry :=
  ((RouteRegistry.empty.addRoute c2RouteA).1.addRoute c2RouteB).1

/-- Registry whose route names are ordinary (non-index) strings. -/
def c2wReg : RouteRegistry :=
  ((RouteRegistry.empty.addRoute (Route.new "/x" (some "users") ⟨"sa", []⟩)).1.addRoute
    (Route.new "/y" (some "orders") ⟨"sb", []⟩)).1

/-- Registry holding one route named `users`. -/
def c3Reg : RouteRegistry :=
  (RouteRegistry.empty.addRoute (Route.new "/users" (some "users") hdl)).1

/-- A second, different route that reuses the name `users`. -/
def c3Dup : Route := Route.new "/users2" (some "users") hdl

/-- Parent whose template parameter `:id` recurs in the child template. -/
def c4Parent : Route := Route.new "/p/:id" (some "par") ⟨"s", []⟩

/-- Child of `c4Parent`; its full path `/p/:id/c/:id` holds `:id` twice. -/
def c4Child : Route :=
  Route.setParent (Route.new "/c/:id" (some "child") ⟨"s", []⟩) c4Parent

/-- Registry holding `c4Parent` and `c4Child`. -/
def c4Reg : RouteRegistry :=
  ((RouteRegistry.empty.addRoute c4Parent).1.addRoute c4Child).1

/-- Registry holding a single parameterised route named `n`. -/
def c4wReg : RouteRegistry :=
  (RouteRegistry.empty.addRoute (Route.new "/a/:id" (some "n") ⟨"s", []⟩)).1

/-- Parent route with the spec example's template `/some/:id?foo=:bar`. -/
def c5Parent : Route := Route.new "/some/:id?foo=:bar" (some "par") ⟨"s", []⟩

/-- Child of `c5Parent` named `child`. -/
def c5Child : Route :=
  Route.setParent (Route.new "/child" (some "child") ⟨"s", []⟩) c5Parent

/-- Registry holding `c5Parent` and `c5Child`. -/
def c5Reg : RouteRegistry :=
  ((RouteRegistry.empty.addRoute c5Parent).1.addRoute c5Child).1

/-- A route that already has a parent. -/
def c8Route : Route :=
  Route.setParent (Route.new "/thing" (some "bar") hdl)
    (Route.new "/some" (some "foo") hdl)

/-! ### Sanity examples (the source's own test expectations) -/

example : Route.matches (Route.new "/some/:id" (some "t") hdl) "/some/item" = true := by decide

example : Route.matches (Route.new "/some/:id" (some "t") hdl) "/some/other/item" = false := by decide

example :
    Route.path (Route.setParent (Route.new "/thing" none hdl)
      (Route.new "/some" none hdl)) = "/some/thing" := by decide

example :
    (Route.handle (Route.new "/some/:id" none hdl) ⟨"/some/foo", ""⟩).args =
      [("routeName", "/some/:id"), ("id", "foo"), ("signalArgs", "value")] := by decide

example :
    (Route.handle (Route.new "/some?id=:id" (some "some") hdl) ⟨"/some", "id=foo"⟩).args =
      [("routeName", "some"), ("id", "foo"), ("signalArgs", "value")] := by decide

example :
    replaceParams "/some/:id?foo=:bar" [("id", "42"), ("bar", "foo")] =
      "/some/42?foo=foo" := by decide

example : replaceFirstStr "/a/:id" ":id" "$&" = "/a/:id" := by decide

example : replaceFirstStr "/a/:id" ":id" "$$50" = "/a/$50" := by decide

example : replaceFirstStr "abc" "b" "$1" = "a$1c" := by decide

example : replaceParams "/x/:b" [("b", ":1"), ("1", "Z")] = "/x/:1" := by decide


/-! ### Lemmas about JS object assignment -/

theorem aget_aset (m : AssocMap) (a b k : String) :
    aget (aset m a b) k = if a = k then some b else aget m k := by
  induction m with
  | nil => simp [aset, aget]
  | cons hd tl ih =>
    obtain ⟨k', v'⟩ := hd
    by_cases h1 : k' = a
    · subst h1
      by_cases h2 : k' = k <;> simp [aset, aget, h2]
    · by_cases h2 : k' = k
      · subst h2
        have : ¬(a = k') := fun he => h1 he.symm
        simp [aset, aget, h1, this]
      · simp [aset, aget, h1, h2, ih]

theorem objAssign_cons (t : AssocMap) (a b : String) (s : AssocMap) :
    objAssign t ((a, b) :: s) = objAssign (aset t a b) s := rfl

theorem aget_objAssign (t s : AssocMap) (k : String) :
    aget (objAssign t s) k =
      Option.orElse (aget (mkObj s) k) fun _ => aget t k := by
  induction s generalizing t with
  | nil => simp [objAssign, mkObj, aget, Option.orElse]
  | cons hd tl ih =>
    obtain ⟨a, b⟩ := hd
    rw [objAssign_cons, ih]
    rw [show mkObj ((a, b) :: tl) = objAssign [(a, b)] tl from rfl, ih]
    cases hmt : aget (mkObj tl) k with
    | some v => simp [Option.orElse]
    | none =>
      by_cases hak : a = k <;>
        simp [Option.orElse, aget_aset, aget, hak]

theorem keys_aset (m : AssocMap) (a b : String) :
    (aset m a b).map Prod.fst =
      if a ∈ m.map Prod.fst then m.map Prod.fst
      else m.map Prod.fst ++ [a] := by
  induction m with
  | nil => simp [aset]
  | cons hd tl ih =>
    obtain ⟨k', v'⟩ := hd
    by_cases h : k' = a
    · simp [aset, h]
    · have : ¬(a = k') := fun he => h he.symm
      by_cases hm : a ∈ tl.map Prod.fst <;>
        simp [aset, h, this, hm, ih]

theorem keysUnique_aset {m : AssocMap} (h : KeysUnique m) (a b : String) :
    KeysUnique (aset m a b) := by
  unfold KeysUnique at *
  rw [keys_aset]
  split_ifs with hmem
  · exact h
  · exact List.Nodup.append h (List.nodup_singleton a) (by simpa using hmem)

theorem keysUnique_objAssign {t : AssocMap} (h : KeysUnique t)
    (s : AssocMap) : KeysUnique (objAssign t s) := by
  induction s generalizing t with
  | nil => exact h
  | cons hd tl ih =>
    rw [show objAssign t (hd :: tl) = objAssign (aset t hd.1 hd.2) tl from rfl]
    exact ih (keysUnique_aset h hd.1 hd.2)

theorem keysUnique_mkObj (s : AssocMap) : KeysUnique (mkObj s) :=
  keysUnique_objAssign (by simp [KeysUnique]) s

theorem objAssign_cons_notmem (a b : String) (t s : AssocMap)
    (h : a ∉ s.map Prod.fst) :
    objAssign ((a, b) :: t) s = (a, b) :: objAssign t s := by
  induction s generalizing t with
  | nil => rfl
  | cons hd tl ih =>
    obtain ⟨k, v⟩ := hd
    have hk : ¬(a = k) := by
      intro he; exact h (by simp [he])
    have htl : a ∉ tl.map Prod.fst := fun hm => h (by simp [hm])
    rw [objAssign_cons, objAssign_cons,
      show aset ((a, b) :: t) k v = (a, b) :: aset t k v by simp [aset, hk]]
    exact ih (aset t k v) htl

theorem aget_mkObj_of_unique {m : AssocMap} (h : KeysUnique m) (k : String) :
    aget (mkObj m) k = aget m k := by
  induction m with
  | nil => rfl
  | cons hd tl ih =>
    obtain ⟨a, b⟩ := hd
    unfold KeysUnique at h
    simp only [List.map_cons, List.nodup_cons] at h
    have hm : mkObj ((a, b) :: tl) = (a, b) :: mkObj tl := by
      rw [show mkObj ((a, b) :: tl) = objAssign [(a, b)] tl from rfl]
      exact objAssign_cons_notmem a b [] tl h.1
    rw [hm]
    by_cases hak : a = k <;> simp [aget, hak, ih h.2]

/-! ### Lemmas about first-occurrence replacement -/

theorem replaceFirstAux_not_occur (pat repl : List Char) (n : Nat)
    (s acc : List Char) (h : hasSubstrAux pat s = false) :
    replaceFirstAux pat repl n s acc = acc.reverse ++ s := by
  induction s generalizing n acc with
  | nil => cases n <;> simp [replaceFirstAux]
  | cons c rest ih =>
    cases n with
    | zero => rfl
    | succ m =>
      simp only [hasSubstrAux, Bool.or_eq_false_iff] at h
      rw [show replaceFirstAux pat repl (m + 1) (c :: rest) acc =
          if pat.isPrefixOf (c :: rest) then
            acc.reverse ++
              getSubstAux pat acc.reverse ((c :: rest).drop pat.length)
                repl.length repl ++
              (c :: rest).drop pat.length
          else replaceFirstAux pat repl m rest (c :: acc) from rfl]
      rw [h.1]
      simp only [Bool.false_eq_true, if_false]
      rw [ih m (c :: acc) h.2]
      simp

theorem replaceFirstStr_not_occur (s pat repl : String)
    (hp : pat.toList.isEmpty = false) (h : hasSubstr s pat = false) :
    replaceFirstStr s pat repl = s := by
  unfold replaceFirstStr
  rw [hp]
  simp only [Bool.false_eq_true, if_false]
  rw [replaceFirstAux_not_occur pat.toList repl.toList _ s.toList [] h]
  rfl

theorem colon_token_nonempty (k : String) :
    (":" ++ k).toList.isEmpty = false := by
  simp [String.toList, String.data_append]

theorem foldl_replaceFirst_not_occur (path : String) (l : AssocMap)
    (h : ∀ kv ∈ l, hasSubstr path (":" ++ kv.1) = false) :
    l.foldl (fun acc kv => replaceFirstStr acc (":" ++ kv.1) kv.2) path =
      path := by
  induction l with
  | nil => rfl
  | cons kv rest ih =>
    show List.foldl _ (replaceFirstStr path (":" ++ kv.1) kv.2) rest = path
    rw [replaceFirstStr_not_occur path _ _ (colon_token_nonempty kv.1)
      (h kv (List.mem_cons_self kv rest))]
    exact ih fun x hx => h x (List.mem_cons_of_mem kv hx)

theorem mem_objKeysOrder {kv : String × String} {m : AssocMap} :
    kv ∈ objKeysOrder m ↔ kv ∈ m := by
  unfold objKeysOrder
  rw [List.mem_append, (List.perm_insertionSort _ _).mem_iff]
  simp only [List.mem_filter]
  cases h : isArrayIndex kv.1 <;> simp [h]

theorem replaceParams_not_occur (path : String) (args : AssocMap)
    (h : ∀ kv ∈ args, hasSubstr path (":" ++ kv.1) = false) :
    replaceParams path args = path :=
  foldl_replaceFirst_not_occur path (objKeysOrder args)
    fun kv hkv => h kv (mem_objKeysOrder.mp hkv)

/-! ### Claim C1 -/

/-- C1: for every route node and URI, `handle(uri)` returns args that merge,
in increasing precedence, (1) the synthesized `routeName` key holding the
node's name, (2) the positional and query parameters extracted from the URI
against the node's full path, and (3) the handler's static args — on a key
collision the later source wins (static args win over extracted params,
which win over `routeName`). -/
theorem c1_handle_args_merge (r : Route) (u : Uri) (k : String)
    (hs : KeysUnique r.handler.args) :
    aget (Route.handle r u).args k =
      Option.orElse (aget r.handler.args k) fun _ =>
        Option.orElse (aget (compiledMap (Route.path r) u) k) fun _ =>
          if k = "routeName" then some (Route.name r) else none := by
  have hKU : KeysUnique (compiledMap (Route.path r) u) := keysUnique_mkObj _
  show aget (objAssign (objAssign [("routeName", Route.name r)]
      (compiledMap (Route.path r) u)) r.handler.args) k = _
  rw [aget_objAssign, aget_mkObj_of_unique hs, aget_objAssign,
    aget_mkObj_of_unique hKU]
  cases aget r.handler.args k with
  | some v => rfl
  | none =>
    cases aget (compiledMap (Route.path r) u) k with
    | some v => rfl
    | none =>
      by_cases hk : k = "routeName"
      · subst hk; simp [Option.orElse, aget]
      · have h2 : ¬("routeName" = k) := fun he => hk he.symm
        simp [Option.orElse, aget, h2, hk]

/-- C1 witness: the route `/some/:id` whose static args also bind `id`,
handled at `/some/foo` — the static value wins at key `id`. -/
theorem c1_handle_args_merge_witness :
    KeysUnique c1Route.handler.args ∧
    aget (Route.handle c1Route ⟨"/some/foo", ""⟩).args "id" =
      Option.orElse (aget c1Route.handler.args "id") fun _ =>
        Option.orElse
          (aget (compiledMap (Route.path c1Route) ⟨"/some/foo", ""⟩) "id")
          fun _ =>
          if "id" = "routeName" then some (Route.name c1Route) else none :=
  ⟨by decide, c1_handle_args_merge c1Route ⟨"/some/foo", ""⟩ "id" (by decide)⟩

/-! ### Claim C2 -/

/-- C2 counterexample: the registry registers the route named `"2"` before
the route named `"1"` and both match `/x`, yet `matchingRoute` returns the
route named `"1"` — JS `for...in` enumerates array-index-like keys in
ascending numeric order before insertion order, so the scan is NOT in
registration order (`matchingRouteSpec`, which is, returns the other
route). -/
theorem c2_matchingRoute_counterexample :
    RouteRegistry.matchingRoute c2Reg "/x" = some c2RouteB ∧
    matchingRouteSpec c2Reg "/x" = some c2RouteA ∧
    c2RouteB ≠ c2RouteA := by
  refine ⟨rfl, rfl, fun h => ?_⟩
  exact absurd (congrArg Route.rawName h) (by decide)

/-- C2 amended: `matchingRoute(path)` scans the registered routes in JS
`for...in` property order — array-index-like names first in ascending
numeric order, then the remaining names in registration order — and returns
the first route whose `matches(path)` is true, or absent.  Whenever no
registered name is an array-index string (e.g. all names are path templates
or ordinary identifiers) this coincides with a scan in registration
order. -/
theorem c2_matchingRoute_amended (reg : RouteRegistry) (path : String)
    (h : ∀ p ∈ reg.routes, isArrayIndex p.1 = false) :
    RouteRegistry.matchingRoute reg path = matchingRouteSpec reg path := by
  unfold RouteRegistry.matchingRoute matchingRouteSpec forInOrder
  have h1 : (reg.routes.filter fun p => isArrayIndex p.1) = [] := by
    rw [List.filter_eq_nil_iff]
    intro a ha
    simp [h a ha]
  have h2 : (reg.routes.filter fun p => !isArrayIndex p.1) = reg.routes := by
    rw [List.filter_eq_self]
    intro a ha
    simp [h a ha]
  rw [h1, h2]
  rfl

/-- C2 witness: a registry whose route names (`users`, `orders`) are not
array indices is scanned in registration order. -/
theorem c2_matchingRoute_amended_witness :
    (∀ p ∈ c2wReg.routes, isArrayIndex p.1 = false) ∧
    RouteRegistry.matchingRoute c2wReg "/y" = matchingRouteSpec c2wReg "/y" :=
  ⟨by decide, c2_matchingRoute_amended c2wReg "/y" (by decide)⟩

/-! ### Claim C3 -/

/-- C3: `addRoute(node)` fails with `DuplicatedRouteError` exactly when
`node.name` is already registered, and on that failure the registry is left
unmodified, so the previously registered node still resolves via
`byName`. -/
theorem c3_addRoute_duplicate (reg : RouteRegistry) (r : Route) :
    (((reg.addRoute r).2.isSome) ↔ (reg.byName (Route.name r)).isSome) ∧
    ((reg.addRoute r).2.isSome →
      (reg.addRoute r).1 = reg ∧
      (reg.addRoute r).1.byName (Route.name r) = reg.byName (Route.name r)) := by
  have key : (reg.routes.any fun p => p.1 == Route.name r) = true ↔
      (reg.routes.find? fun p => p.1 == Route.name r).isSome = true := by
    rw [List.any_eq_true, List.find?_isSome]
  by_cases h : (reg.routes.any fun p => p.1 == Route.name r) = true
  · constructor
    · simp only [RouteRegistry.addRoute, h, if_true, Option.isSome_some,
        RouteRegistry.byName, Option.isSome_map']
      exact iff_of_true trivial (key.mp h)
    · intro _
      simp [RouteRegistry.addRoute, h]
  · have hf : (reg.routes.find? fun p => p.1 == Route.name r).isSome = false := by
      rcases Bool.eq_false_or_eq_true
          ((reg.routes.find? fun p => p.1 == Route.name r).isSome) with hc | hc
      · exact absurd (key.mpr hc) h
      · exact hc
    constructor
    · simp only [RouteRegistry.addRoute, h, if_false, Bool.false_eq_true,
        RouteRegistry.byName, Option.isSome_map']
      simp [hf]
    · intro hcontra
      simp [RouteRegistry.addRoute, h] at hcontra

/-- C3 witness: adding a second (different) route named `users` to a
registry already holding one. -/
theorem c3_addRoute_duplicate_witness :
    (((c3Reg.addRoute c3Dup).2.isSome) ↔
      (c3Reg.byName (Route.name c3Dup)).isSome) ∧
    ((c3Reg.addRoute c3Dup).2.isSome →
      (c3Reg.addRoute c3Dup).1 = c3Reg ∧
      (c3Reg.addRoute c3Dup).1.byName (Route.name c3Dup) =
        c3Reg.byName (Route.name c3Dup)) :=
  c3_addRoute_duplicate c3Reg c3Dup

/-! ### Claim C4 -/

/-- C4 counterexample: the registered route `child` has full path
`/p/:id/c/:id`; `named('child', {id: '42'})` substitutes only the FIRST
`:id` token (JS `String.replace` with a string pattern), returning
`/p/42/c/:id`, while the claim ("each token `:<key>` replaced, for every
key present") demands `/p/42/c/42` (the spec-side `substSpec`). -/
theorem c4_named_counterexample :
    TreeRouterService.named c4Reg "child" [("id", "42")] =
      some "/p/42/c/:id" ∧
    substSpec (Route.path c4Child) [("id", "42")] = "/p/42/c/42" ∧
    ("/p/42/c/:id" : String) ≠ "/p/42/c/42" :=
  ⟨rfl, rfl, by decide⟩

/-- C4 amended: `named(name, argsMapping)` is absent exactly when no route
with that name is registered; otherwise it returns the found node's full
path with, for each key of the mapping in `Object.keys` order (array-index
keys first ascending, then insertion order), only the FIRST occurrence of
the token `:<key>` replaced by that key's value as JS `String.replace`
substitutes it (dollar sequences in the value processed); keys whose token
does not occur in the path are silently ignored, with no error. -/
theorem c4_named_amended (reg : RouteRegistry) (nm : String)
    (args : AssocMap) :
    (TreeRouterService.named reg nm args).isSome = (reg.byName nm).isSome ∧
    (∀ r, reg.byName nm = some r →
      TreeRouterService.named reg nm args =
        some (replaceParams (Route.path r) args) ∧
      ((∀ kv ∈ args, hasSubstr (Route.path r) (":" ++ kv.1) = false) →
        TreeRouterService.named reg nm args = some (Route.path r))) := by
  constructor
  · unfold TreeRouterService.named
    cases reg.byName nm <;> rfl
  · intro r hr
    unfold TreeRouterService.named
    rw [hr]
    refine ⟨rfl, fun hno => ?_⟩
    show some (replaceParams (Route.path r) args) = some (Route.path r)
    rw [replaceParams_not_occur _ _ hno]

/-- C4 witness: the single-route registry `/a/:id` under name `n`,
substituted with `{id: '1'}`. -/
theorem c4_named_amended_witness :
    (TreeRouterService.named c4wReg "n" [("id", "1")]).isSome =
      (c4wReg.byName "n").isSome ∧
    (∀ r, c4wReg.byName "n" = some r →
      TreeRouterService.named c4wReg "n" [("id", "1")] =
        some (replaceParams (Route.path r) [("id", "1")]) ∧
      ((∀ kv ∈ [(("id" : String), ("1" : String))],
          hasSubstr (Route.path r) (":" ++ kv.1) = false) →
        TreeRouterService.named c4wReg "n" [("id", "1")] =
          some (Route.path r))) :=
  c4_named_amended c4wReg "n" [("id", "1")]

/-! ### Claim C5 -/

/-- C5: `parent(name, args)` is absent for an unknown name, absent (not the
node's own path, not an error) for a node with no parent, and otherwise the
parent's full path with parameters substituted; in particular against the
parent path `/some/:id?foo=:bar` with `{id: '42', bar: 'foo'}` it yields
`/some/42?foo=foo`. -/
theorem c5_parent_lookup (reg : RouteRegistry) (nm : String)
    (args : AssocMap) :
    (reg.byName nm = none → TreeRouterService.parent reg nm args = none) ∧
    (∀ r, reg.byName nm = some r → Route.parent r = none →
      TreeRouterService.parent reg nm args = none) ∧
    (∀ r p, reg.byName nm = some r → Route.parent r = some p →
      TreeRouterService.parent reg nm args =
        some (replaceParams (Route.path p) args)) ∧
    TreeRouterService.parent c5Reg "child" [("id", "42"), ("bar", "foo")] =
      some "/some/42?foo=foo" := by
  refine ⟨?_, ?_, ?_, rfl⟩
  · intro h
    unfold TreeRouterService.parent
    rw [h]
    rfl
  · intro r hr hp
    unfold TreeRouterService.parent
    rw [hr]
    show (match Route.parent r with
      | none => none
      | some p => some (replaceParams (Route.path p) args)) = none
    rw [hp]
  · intro r p hr hp
    unfold TreeRouterService.parent
    rw [hr]
    show (match Route.parent r with
      | none => none
      | some p => some (replaceParams (Route.path p) args)) = _
    rw [hp]

/-- C5 witness: the unknown name case on the concrete registry. -/
theorem c5_parent_lookup_witness :
    (c5Reg.byName "nobody" = none →
      TreeRouterService.parent c5Reg "nobody" [] = none) ∧
    (∀ r, c5Reg.byName "nobody" = some r → Route.parent r = none →
      TreeRouterService.parent c5Reg "nobody" [] = none) ∧
    (∀ r p, c5Reg.byName "nobody" = some r → Route.parent r = some p →
      TreeRouterService.parent c5Reg "nobody" [] =
        some (replaceParams (Route.path p) [])) ∧
    TreeRouterService.parent c5Reg "child" [("id", "42"), ("bar", "foo")] =
      some "/some/42?foo=foo" :=
  c5_parent_lookup c5Reg "nobody" []

/-! ### Claim C6 -/

/-- C6: `path()` returns the local template for a parentless node, and
otherwise the parent's full path with a single trailing `/` stripped,
concatenated with the local template; `Route('/thing')` under parent
`Route('/some')` has path `/some/thing`. -/
theorem c6_path_composition (r : Route) :
    (Route.parent r = none → Route.path r = Route.url r) ∧
    (∀ p, Route.parent r = some p →
      Route.path r = stripEndSlash (Route.path p) ++ Route.url r) ∧
    (∀ n1 n2 h1 h2, Route.path (Route.setParent (Route.new "/thing" n1 h1)
      (Route.new "/some" n2 h2)) = "/some/thing") := by
  obtain ⟨u, n, h, pa⟩ := r
  refine ⟨?_, ?_, fun n1 n2 h1 h2 => rfl⟩
  · intro hp
    cases pa with
    | none => rfl
    | some q => exact absurd hp (by simp [Route.parent])
  · intro p hp
    cases pa with
    | none => exact absurd hp (by simp [Route.parent])
    | some q =>
      have : q = p := by
        have := hp
        simp [Route.parent] at this
        exact this
      subst this
      rfl

/-- C6 witness: a parentless route's path is its template. -/
theorem c6_path_composition_witness :
    (Route.parent (Route.new "/some" none hdl) = none →
      Route.path (Route.new "/some" none hdl) =
        Route.url (Route.new "/some" none hdl)) ∧
    (∀ p, Route.parent (Route.new "/some" none hdl) = some p →
      Route.path (Route.new "/some" none hdl) =
        stripEndSlash (Route.path p) ++ Route.url (Route.new "/some" none hdl)) ∧
    (∀ n1 n2 h1 h2, Route.path (Route.setParent (Route.new "/thing" n1 h1)
      (Route.new "/some" n2 h2)) = "/some/thing") :=
  c6_path_composition (Route.new "/some" none hdl)

/-! ### Claim C7 -/

theorem string_isEmpty_iff (s : String) : s.toList.isEmpty = true ↔ s = "" := by
  constructor
  · intro h
    apply String.ext
    have h2 : s.toList = [] := by simpa using h
    exact h2
  · intro h
    subst h
    rfl

theorem string_isEmpty_false_iff (s : String) :
    s.toList.isEmpty = false ↔ s ≠ "" := by
  rw [← Bool.not_eq_true, not_iff_not]
  exact string_isEmpty_iff s

theorem segTest_eq_true_iff (t c : String) :
    segTest t c = true ↔
      ((strStartsWith t ":" = true → c ≠ "") ∧
       (strStartsWith t ":" = false → t = c)) := by
  cases h : strStartsWith t ":" with
  | true =>
    simp only [segTest, h, if_true, Bool.not_eq_true']
    rw [string_isEmpty_false_iff]
    simp
  | false => simp [segTest, h]

/-- C7: `matches(path)` is true iff the candidate's segment count equals
that of the node's full path and every literal segment matches exactly,
each `:name` parameter segment matching any single non-empty segment; in
particular `/some/:id` matches `/some/item` but not `/some/other/item`. -/
theorem c7_matches_exact_segments (r : Route) (cand : String) :
    (Route.matches r cand = true ↔
      ((splitOnStr (pathPart (Route.path r)) "/").length =
          (splitOnStr cand "/").length ∧
        ∀ tc ∈ (splitOnStr (pathPart (Route.path r)) "/").zip
            (splitOnStr cand "/"),
          (strStartsWith tc.1 ":" = true → tc.2 ≠ "") ∧
          (strStartsWith tc.1 ":" = false → tc.1 = tc.2))) ∧
    (∀ n h, Route.matches (Route.new "/some/:id" n h) "/some/item" = true) ∧
    (∀ n h,
      Route.matches (Route.new "/some/:id" n h) "/some/other/item" = false) := by
  refine ⟨?_, fun n h => rfl, fun n h => rfl⟩
  simp only [Route.matches, testPath, Bool.and_eq_true, beq_iff_eq,
    List.all_eq_true, segTest_eq_true_iff]

/-- C7 witness: the template `/some/:id` against the matching candidate
`/some/item`. -/
theorem c7_matches_exact_segments_witness :
    (Route.matches (Route.new "/some/:id" (some "t") hdl) "/some/item" = true ↔
      ((splitOnStr (pathPart (Route.path (Route.new "/some/:id" (some "t") hdl)))
          "/").length = (splitOnStr "/some/item" "/").length ∧
        ∀ tc ∈ (splitOnStr
            (pathPart (Route.path (Route.new "/some/:id" (some "t") hdl)))
            "/").zip (splitOnStr "/some/item" "/"),
          (strStartsWith tc.1 ":" = true → tc.2 ≠ "") ∧
          (strStartsWith tc.1 ":" = false → tc.1 = tc.2))) ∧
    (∀ n h, Route.matches (Route.new "/some/:id" n h) "/some/item" = true) ∧
    (∀ n h,
      Route.matches (Route.new "/some/:id" n h) "/some/other/item" = false) :=
  c7_matches_exact_segments (Route.new "/some/:id" (some "t") hdl) "/some/item"

/-! ### Claim C8 -/

/-- C8: assigning a parent to a node whose parent is already set is a
silent no-op — the node, its parent, and hence its full path are all
unchanged, and no error is raised (the setter total-returns the node). -/
theorem c8_parent_set_once (r p : Route)
    (h : (Route.parent r).isSome = true) :
    Route.setParent r p = r ∧
    Route.parent (Route.setParent r p) = Route.parent r ∧
    Route.path (Route.setParent r p) = Route.path r := by
  obtain ⟨u, n, hd2, pa⟩ := r
  cases pa with
  | none => simp [Route.parent] at h
  | some q => exact ⟨rfl, rfl, rfl⟩

/-- C8 witness: re-assigning a parent on `/thing` (already under `/some`)
changes nothing. -/
theorem c8_parent_set_once_witness :
    (Route.parent c8Route).isSome = true ∧
    (Route.setParent c8Route (Route.new "/other" none hdl) = c8Route ∧
      Route.parent (Route.setParent c8Route (Route.new "/other" none hdl)) =
        Route.parent c8Route ∧
      Route.path (Route.setParent c8Route (Route.new "/other" none hdl)) =
        Route.path c8Route) :=
  ⟨by decide, c8_parent_set_once c8Route (Route.new "/other" none hdl)
    (by decide)⟩

/-! ### Claim C9 -/

/-- C9: `path()` and `matches` are deterministic pure functions of the
node's template and ancestor chain: repeated calls agree, and `matches` is
determined by the node's full path alone. -/
theorem c9_pure_deterministic (r : Route) (cand : String) :
    Route.path r = Route.path r ∧
    Route.matches r cand = Route.matches r cand ∧
    (∀ r2, Route.path r2 = Route.path r →
      ∀ c, Route.matches r2 c = Route.matches r c) := by
  refine ⟨rfl, rfl, fun r2 h c => ?_⟩
  unfold Route.matches
  rw [h]

/-- C9 witness: instantiated at the `/some/:id` route and `/some/foo`. -/
theorem c9_pure_deterministic_witness :
    Route.path c1Route = Route.path c1Route ∧
    Route.matches c1Route "/some/foo" = Route.matches c1Route "/some/foo" ∧
    (∀ r2, Route.path r2 = Route.path c1Route →
      ∀ c, Route.matches r2 c = Route.matches c1Route c) :=
  c9_pure_deterministic c1Route "/some/foo"

/-! ### Claim C10 -/

/-- C10: a route constructed with a falsy name — absent or the empty
string — falls back to its local path template as its name, so its key
when registered is the template string, not the empty string. -/
theorem c10_falsy_name_fallback (url : String) (hd2 : Handler)
    (n : Option String) (hn : n = none ∨ n = some "") :
    Route.name (Route.new url n hd2) = Route.url (Route.new url n hd2) ∧
    (RouteRegistry.empty.addRoute (Route.new url n hd2)).1.byName
        (Route.url (Route.new url n hd2)) = some (Route.new url n hd2) := by
  have hname : Route.name (Route.new url n hd2) =
      Route.url (Route.new url n hd2) := by
    rcases hn with h | h <;> subst h <;> rfl
  refine ⟨hname, ?_⟩
  unfold RouteRegistry.addRoute RouteRegistry.empty RouteRegistry.byName
  simp [List.find?, hname]

/-- C10 witness: the empty-string name on template `/some`. -/
theorem c10_falsy_name_fallback_witness :
    ((some "" : Option String) = none ∨ (some "" : Option String) = some "") ∧
    (Route.name (Route.new "/some" (some "") hdl) =
        Route.url (Route.new "/some" (some "") hdl) ∧
      (RouteRegistry.empty.addRoute (Route.new "/some" (some "") hdl)).1.byName
          (Route.url (Route.new "/some" (some "") hdl)) =
        some (Route.new "/some" (some "") hdl)) :=
  ⟨Or.inr rfl, c10_falsy_name_fallback "/some" hdl (some "") (Or.inr rfl)⟩

end TreeRouter
